import Mathlib

/-!
Shallow embedding of the particle swarm optimizer from `pkg/swarm/swarm.go`.

Modelling conventions:
* `float64` values are modelled as exact rationals (`ℚ`).  Every property at
  stake here is an order/piecewise-linear fact, preserved by exact arithmetic.
  `math.MaxFloat64` is the exact rational `(2^53 - 1) * 2^971`.
* `math.Log10`, used only by the stall-detection rule, is modelled by
  `Real.logb 10` on `ℝ`.
* Go slices become `List`s.  `l.set i v` is a no-op for `i ≥ l.length` and
  `l.getD i d` yields `d` out of range, where Go would panic on an
  out-of-range index; the theorems below only visit in-range indices of
  well-formed states, where the two semantics agree.
* `rand.Float64()` draws are passed in explicitly as functions of the
  particle / dimension / step indices; all theorems quantify over them.
* The worker pool of `updateFitness` evaluates fitness concurrently with
  aggregation, but workers read only `positions`, `options` and `fitness`,
  none of which aggregation mutates, and the orchestrator drains exactly
  `PopulationSize` results.  We therefore model one evaluation/aggregation
  pass per particle, processed in index order (channel arrival order is
  nondeterministic in Go, but every property proved here is insensitive to
  the processing order).
* `Optimizer` methods in Go take a possibly-nil pointer receiver.  A handle
  is modelled as `Option Optimizer`; an operation that would dereference a
  nil pointer is modelled as `Except.error`.
-/

namespace swarm

/-- Vectors of `float64`, e.g. particle positions and velocities. -/
abbrev Vec := List ℚ

/-- `type Range [2]float64`; `lo` is `r[0]`, `hi` is `r[1]`. -/
structure Range where
  lo : ℚ
  hi : ℚ
deriving DecidableEq

/-- `func (r Range) Contains(x float64) bool`: the all-zero Range is the
"unbounded" sentinel for which every value is contained. -/
def Range.Contains (r : Range) (x : ℚ) : Bool :=
  if r.lo = 0 ∧ r.hi = 0 then true
  else if x < r.lo ∨ r.hi < x then false
  else true

/-- `func (r Range) Clip(x float64) float64`: identity on the unbounded
sentinel, otherwise saturate at the nearer bound. -/
def Range.Clip (r : Range) (x : ℚ) : ℚ :=
  if r.lo = 0 ∧ r.hi = 0 then x
  else if x < r.lo then r.lo
  else if r.hi < x then r.hi
  else x

/-- The exact value of Go's `math.MaxFloat64` = (2 - 2^-52) * 2^1023. -/
def maxFloat64 : ℚ := (2 ^ 53 - 1) * 2 ^ 971

/-- `type Options struct`.  `uint` fields are modelled as `ℕ` (wraparound is
made explicit where it can occur, in the `PopulationSize` defaulting
product).  The unexported derived field `groupCount` is kept as `ℕ`; Go
stores `int(PopulationSize / LocalSize)`, identical below `2^63`. -/
structure Options where
  LocalSize : ℕ
  PopulationSize : ℕ
  Parallelism : ℕ
  Bounds : List Range
  Constraints : List (Vec → Bool)
  Inertia : ℚ
  ParticleStep : ℚ
  LocalStep : ℚ
  GlobalStep : ℚ
  StallLimit : ℕ
  Verbose : Bool
  WaitMagnitude : ℚ
  groupCount : ℕ

/-- `type Optimizer struct`.

NOTE (aliasing): `Reset` executes `copy(opt.particleBestPosition,
opt.positions)` on two `[][]float64` values, which copies the inner slice
HEADERS, not the float values.  From then on `particleBestPosition[i]` and
`positions[i]` are the same backing array: neither slice header is ever
reassigned afterwards (`Step` writes `positions[idx][i] = ...` elementwise,
`updateFitness` copies values into the shared buffer).  We model this
permanent aliasing by keeping both fields and mirroring every elementwise
write to `positions[idx]` into `particleBestPosition[idx]`. -/
structure Optimizer where
  fitness : Vec → ℚ
  shape : List Range
  options : Options
  positions : List Vec
  velocities : List Vec
  stallCount : List ℕ
  particleBestPosition : List Vec
  particleBestFitness : List ℚ
  localBestPosition : List Vec
  localBestFitness : List ℚ
  globalBestPosition : Vec
  globalBestFitness : ℚ
  averageFitness : ℚ

/-- `func (opt *Optimizer) Best() []float64` on the nil-checked handle. -/
def BestH : Option Optimizer → Option Vec
  | none => none
  | some opt => some opt.globalBestPosition

/-- Go's `copy(dst, src)` for `[]float64` buffers: overwrites the first
`min |dst| |src|` entries of `dst` with those of `src`. -/
def copyVec (dst src : Vec) : Vec :=
  src.take (min dst.length src.length) ++ dst.drop (min dst.length src.length)

/-- The option-defaulting block of `func New` (swarm.go lines 137-167).  Go
performs ten sequential conditional assignments; each condition reads a
field that no earlier assignment modified, so the simultaneous record below
is the same function.  `PopulationSize` defaulting reads the already
resolved `LocalSize`, and `groupCount` the resolved pair, exactly as in the
source.  The defaulting product `10 * LocalSize * uint(len(shape))` is
`uint` arithmetic, hence the explicit `% 2^64`.  `Parallelism` defaults to
`runtime.GOMAXPROCS(0)`, passed in as `gomaxprocs`. -/
def resolveOptions (opts : Options) (dims gomaxprocs : ℕ) : Options :=
  let ls := if opts.LocalSize = 0 then 25 else opts.LocalSize
  let ps := if opts.PopulationSize = 0 then (10 * ls * dims) % 2 ^ 64 else opts.PopulationSize
  { opts with
    LocalSize := ls
    PopulationSize := ps
    groupCount := ps / ls
    Parallelism := if opts.Parallelism = 0 then gomaxprocs else opts.Parallelism
    Inertia := if opts.Inertia = 0 then 0.95 else opts.Inertia
    ParticleStep := if opts.ParticleStep = 0 then 0.75 else opts.ParticleStep
    LocalStep := if opts.LocalStep = 0 then 0.5 else opts.LocalStep
    GlobalStep := if opts.GlobalStep = 0 then 0.1 else opts.GlobalStep
    StallLimit := if opts.StallLimit = 0 then 3 else opts.StallLimit
    WaitMagnitude := if opts.WaitMagnitude = 0 then 2 else opts.WaitMagnitude }

/-- `func (opt *Optimizer) Reset()` on a non-nil receiver.  `rnd i j` gives
the pair of `rand.Float64()` draws consumed for particle `i`, dimension `j`
(position draw first, velocity draw second, as in the source loop).
`copy(opt.particleBestPosition, opt.positions)` copies slice headers: see
the aliasing note on `Optimizer`.  With `PopulationSize = 0` the source
would panic reading `positions[0]` for the global best seed; `getD`'s
default stands in for that (no claim exercises it). -/
def ResetO (opt : Optimizer) (rnd : ℕ → ℕ → ℚ × ℚ) : Optimizer :=
  let pop := opt.options.PopulationSize
  let dims := opt.shape.length
  let positions := (List.range pop).map fun i =>
    (List.range dims).map fun j =>
      let r := opt.shape.getD j ⟨0, 0⟩
      r.lo + (r.hi - r.lo) * (rnd i j).1
  let velocities := (List.range pop).map fun i =>
    (List.range dims).map fun j =>
      let r := opt.shape.getD j ⟨0, 0⟩
      (2 * (rnd i j).2 - 1) * (r.hi - r.lo)
  { opt with
    positions := positions
    velocities := velocities
    stallCount := List.replicate pop 0
    particleBestPosition := positions
    particleBestFitness := List.replicate pop maxFloat64
    localBestPosition := (List.range opt.options.groupCount).map fun i =>
      copyVec (List.replicate dims 0) (positions.getD (i * opt.options.LocalSize) [])
    localBestFitness := List.replicate opt.options.groupCount maxFloat64
    globalBestPosition := copyVec (List.replicate dims 0) (positions.getD 0 [])
    globalBestFitness := maxFloat64 }

/-- `Reset` on the handle: explicit nil check, no-op on nil. -/
def ResetH (rnd : ℕ → ℕ → ℚ × ℚ) : Option Optimizer → Option Optimizer
  | none => none
  | some opt => some (ResetO opt rnd)

/-- The single construction error `ErrInvalidShape`. -/
inductive NewError where
  | invalidShape
deriving DecidableEq

/-- `func New(fitness Fitness, shape []Range, options Options)`. -/
def New (fitness : Vec → ℚ) (shape : List Range) (options : Options)
    (gomaxprocs : ℕ) (rnd : ℕ → ℕ → ℚ × ℚ) : Except NewError Optimizer :=
  if shape.length = 0 then Except.error NewError.invalidShape
  else
    Except.ok (ResetO
      { fitness := fitness
        shape := shape
        options := resolveOptions options shape.length gomaxprocs
        positions := []
        velocities := []
        stallCount := []
        particleBestPosition := []
        particleBestFitness := []
        localBestPosition := []
        localBestFitness := []
        globalBestPosition := []
        globalBestFitness := 0
        averageFitness := 0 } rnd)

/-- `func (opt *Optimizer) getParticleFitness(idx int)`: `none` models the
nil `*float64` recorded for an infeasible particle.  The source iterates
`Bounds` with an early return on the first failing dimension and then the
`Constraints` predicates; with pure predicates that equals the two `all`
checks below. -/
def getParticleFitness (opt : Optimizer) (idx : ℕ) : Option ℚ :=
  let position := opt.positions.getD idx []
  if (opt.options.Bounds.enum.all fun bi => bi.2.Contains (position.getD bi.1 0))
      && (opt.options.Constraints.all fun c => c position)
  then some (opt.fitness position)
  else none

/-- One turn of the result-draining loop of `updateFitness` (swarm.go lines
283-308): for the particle `idx`, either bump its stall count (infeasible),
or accumulate the average and conditionally improve the personal / group /
global bests.  The `ℚ × ℚ` component carries the `avg` and `count`
accumulators.  The fitness is recomputed from the current state: aggregation
never mutates `positions`, `options` or `fitness`, so this equals the value
the worker computed from the pre-aggregation state. -/
def applyResult (st : Optimizer) (avg count : ℚ) (idx : ℕ) : Optimizer × ℚ × ℚ :=
  match getParticleFitness st idx with
  | none =>
    ({ st with stallCount := st.stallCount.set idx (st.stallCount.getD idx 0 + 1) }, avg, count)
  | some f =>
    let st1 :=
      if f < st.particleBestFitness.getD idx 0 then
        { st with
          particleBestFitness := st.particleBestFitness.set idx f
          particleBestPosition := st.particleBestPosition.set idx
            (copyVec (st.particleBestPosition.getD idx []) (st.positions.getD idx [])) }
      else st
    let groupIdx := idx % st1.options.groupCount
    let st2 :=
      if f < st1.localBestFitness.getD groupIdx 0 then
        { st1 with
          localBestFitness := st1.localBestFitness.set groupIdx f
          localBestPosition := st1.localBestPosition.set groupIdx
            (copyVec (st1.localBestPosition.getD groupIdx []) (st1.positions.getD idx [])) }
      else st1
    let st3 :=
      if f < st2.globalBestFitness then
        { st2 with
          globalBestFitness := f
          globalBestPosition := copyVec st2.globalBestPosition (st2.positions.getD idx []) }
      else st2
    (st3, avg + f, count + 1)

/-- `func (opt *Optimizer) updateFitness()` on a non-nil receiver: drain one
result per particle, then store `averageFitness = avg / count`.  (In Go
`count = 0` gives a NaN; `ℚ` division by zero gives `0`.  No claim touches
that value, and the spec flags it as an open question.) -/
def updateFitness (opt : Optimizer) : Optimizer :=
  let r := (List.range opt.options.PopulationSize).foldl
    (fun acc idx => applyResult acc.1 acc.2.1 acc.2.2 idx) (opt, 0, 0)
  { r.1 with averageFitness := r.2.1 / r.2.2 }

/-- `func sum(vs ...[]float64) []float64`: elementwise summation into a
fresh vector of the first argument's length.  (Go panics when a later
vector is longer than the first; out-of-range reads default to `0` here,
and all call sites use equal lengths.) -/
def sum (vs : List Vec) : Vec :=
  match vs with
  | [] => []
  | v0 :: _ =>
    vs.foldl (fun result v => result.enum.map fun p => p.2 + v.getD p.1 0)
      (List.replicate v0.length 0)

/-- `func sub(u, v []float64) []float64`. -/
def sub (u v : Vec) : Vec :=
  u.enum.map fun p => p.2 - v.getD p.1 0

/-- `func scale(v []float64, s float64) []float64`. -/
def scale (v : Vec) (s : ℚ) : Vec :=
  v.map fun x => x * s

/-- The position write-back loop at the end of `Step` (swarm.go lines
334-338): `for i, bounds := range opt.options.Bounds {
opt.positions[idx][i] = bounds.Clip(np[i]) }`.  Only coordinates covered by
`Bounds` are written; the rest of `positions[idx]` keeps its old value, and
`np` is dropped there. -/
def applyBoundsClip (bounds : List Range) (old np : Vec) : Vec :=
  old.enum.map fun p =>
    match bounds.get? p.1 with
    | some b => b.Clip (np.getD p.1 0)
    | none => p.2

/-- The per-particle body of the update-rule loop in `Step` (swarm.go lines
317-338).  `r = (r_p, r_l, r_g)` are the three `rand.Float64()` draws of
this particle.  The write to `positions[idx]` is elementwise through an
aliased buffer, so it is mirrored into `particleBestPosition[idx]` (see the
note on `Optimizer`). -/
def stepBody (o : Optimizer) (r : ℚ × ℚ × ℚ) (idx : ℕ) : Optimizer :=
  let groupIdx := idx % o.options.groupCount
  let ri := o.positions.getD idx []
  let rp := scale (sub (o.particleBestPosition.getD idx []) ri) r.1
  let rl := scale (sub (o.localBestPosition.getD groupIdx []) ri) r.2.1
  let rg := scale (sub o.globalBestPosition ri) r.2.2
  let vi := o.velocities.getD idx []
  let nv := sum [scale vi o.options.Inertia, scale rp o.options.ParticleStep,
    scale rl o.options.LocalStep, scale rg o.options.GlobalStep]
  let np := sum [ri, nv]
  let npClipped := applyBoundsClip o.options.Bounds ri np
  { o with
    velocities := o.velocities.set idx nv
    positions := o.positions.set idx npClipped
    particleBestPosition := o.particleBestPosition.set idx npClipped }

/-- The sequential update-rule loop of `Step`. -/
def stepUpdate (o : Optimizer) (rnd : ℕ → ℚ × ℚ × ℚ) : Optimizer :=
  (List.range o.options.PopulationSize).foldl (fun acc idx => stepBody acc (rnd idx) idx) o

/-- `func (opt *Optimizer) Step()` on a non-nil receiver: evaluate and
aggregate fitness, then run the update rule. -/
def StepO (opt : Optimizer) (rnd : ℕ → ℚ × ℚ × ℚ) : Optimizer :=
  stepUpdate (updateFitness opt) rnd

/-- `Step` on the handle.  `Step` itself has NO nil check: it calls
`updateFitness` (which returns early on nil) and then evaluates the loop
bound `int(opt.options.PopulationSize)`, dereferencing the nil receiver —
a runtime panic, modelled as `Except.error`. -/
def StepH (rnd : ℕ → ℚ × ℚ × ℚ) : Option Optimizer → Except Unit (Option Optimizer)
  | none => Except.error ()
  | some opt => Except.ok (some (StepO opt rnd))

/-- `n` consecutive `Step` invocations; `rnd k` supplies step `k`'s draws. -/
def stepN (opt : Optimizer) (rnd : ℕ → ℕ → ℚ × ℚ × ℚ) : ℕ → Optimizer
  | 0 => opt
  | n + 1 => StepO (stepN opt rnd n) (rnd n)

/-- The stall-detection stop test of `StepUntil` (swarm.go line 394), with
`waitLimit = log10 steps` and `waitedFor = log10 sSince`:
`waitedFor > WaitMagnitude && waitLimit - waitedFor < WaitMagnitude`. -/
def stopCond (W : ℚ) (steps sSince : ℕ) : Prop :=
  (W : ℝ) < Real.logb 10 (sSince : ℝ) ∧
    Real.logb 10 (steps : ℝ) - Real.logb 10 (sSince : ℝ) < (W : ℝ)

/-- The mutable locals of the `StepUntil` loop: the optimizer, the running
step count, `last` (previous global best) and `stepsSinceImprovement`. -/
structure CtrlState where
  opt : Optimizer
  steps : ℕ
  last : ℚ
  sinceImprovement : ℕ

open Classical in
/-- The `for` loop of `StepUntil` (swarm.go lines 382-405).  The Go loop
has no bound; `fuel` makes the recursion structural and exhaustion returns
the current step count (every property proved below is per-iteration, so
the artifact is harmless).  Each iteration steps the swarm, increments the
step count, then: if the global best improved by less than `minRate` the
stagnation counter is incremented and the stop test is evaluated (breaking
with the step count), otherwise the counter resets to 0; `last` becomes the
current global best either way. -/
noncomputable def stepUntilLoop (rnd : ℕ → ℕ → ℚ × ℚ × ℚ) (minRate : ℚ) :
    ℕ → CtrlState → ℕ
  | 0, c => c.steps
  | fuel + 1, c =>
    let o := StepO c.opt (rnd c.steps)
    if c.last - o.globalBestFitness < minRate then
      if stopCond o.options.WaitMagnitude (c.steps + 1) (c.sinceImprovement + 1) then
        c.steps + 1
      else
        stepUntilLoop rnd minRate fuel
          ⟨o, c.steps + 1, o.globalBestFitness, c.sinceImprovement + 1⟩
    else
      stepUntilLoop rnd minRate fuel ⟨o, c.steps + 1, o.globalBestFitness, 0⟩

/-- `func (opt *Optimizer) StepUntil(progressRate float64) (steps int)` on
the handle: `0` on nil; otherwise one initial step, then the loop with
`minProgressRate = |progressRate|`. -/
noncomputable def StepUntilH (rnd : ℕ → ℕ → ℚ × ℚ × ℚ) (progressRate : ℚ) (fuel : ℕ) :
    Option Optimizer → ℕ
  | none => 0
  | some opt =>
    let o1 := StepO opt (rnd 0)
    stepUntilLoop rnd |progressRate| fuel ⟨o1, 1, o1.globalBestFitness, 0⟩

/-- The accumulation loop of `updateFitness`, as a function of the index list. -/
def aggFold (l : List ℕ) (acc : Optimizer × ℚ × ℚ) : Optimizer × ℚ × ℚ :=
  l.foldl (fun acc idx => applyResult acc.1 acc.2.1 acc.2.2 idx) acc

/-- The update-rule loop, as a function of the index list. -/
def updFold (rnd : ℕ → ℚ × ℚ × ℚ) (l : List ℕ) (o : Optimizer) : Optimizer :=
  l.foldl (fun acc idx => stepBody acc (rnd idx) idx) o

/-- A vector all of whose coordinates covered by `bounds` carry a `Clip`
value (the shape `Step` leaves every updated position in). -/
def ClippedVec (bounds : List Range) (v : Vec) : Prop :=
  ∀ j, j < bounds.length → j < v.length → ∃ y, v.getD j 0 = (bounds.getD j ⟨0, 0⟩).Clip y

/-! ### Concrete states used by witnesses and counterexamples -/

/-- Zero random draws for the update rule. -/
def rndZero3 : ℕ → ℚ × ℚ × ℚ := fun _ => (0, 0, 0)

/-- Zero random draws for `Reset` / `New`. -/
def rndZero2 : ℕ → ℕ → ℚ × ℚ := fun _ _ => (0, 0)

/-- Zero random draws for multi-step runs. -/
def rndZero23 : ℕ → ℕ → ℚ × ℚ × ℚ := fun _ _ => (0, 0, 0)

/-- The zero `Options` value (every field unset). -/
def baseOptions : Options :=
  { LocalSize := 0, PopulationSize := 0, Parallelism := 0, Bounds := [],
    Constraints := [], Inertia := 0, ParticleStep := 0, LocalStep := 0,
    GlobalStep := 0, StallLimit := 0, Verbose := false, WaitMagnitude := 0,
    groupCount := 0 }

/-- A one-particle, one-dimensional optimizer with EMPTY `Bounds`, velocity 1
and an always-false constraint (so evaluation records no fitness). -/
def optC1 : Optimizer :=
  { fitness := fun _ => 0
    shape := [⟨0, 1⟩]
    options := { baseOptions with
      LocalSize := 1, PopulationSize := 1, Parallelism := 1,
      Constraints := [fun _ => false], Inertia := 1, ParticleStep := 1,
      LocalStep := 1, GlobalStep := 1, StallLimit := 3, WaitMagnitude := 2,
      groupCount := 1 }
    positions := [[1]]
    velocities := [[1]]
    stallCount := [0]
    particleBestPosition := [[1]]
    particleBestFitness := [1000]
    localBestPosition := [[1]]
    localBestFitness := [1000]
    globalBestPosition := [1]
    globalBestFitness := 1000
    averageFitness := 0 }

/-- A feasible one-particle optimizer whose particle records fitness 5,
strictly worse than every recorded best (all 0), with `Bounds = [⟨1, 4⟩]`
and velocity 1 so that the update rule moves the position 2 → 3. -/
def optC8 : Optimizer :=
  { fitness := fun _ => 5
    shape := [⟨0, 1⟩]
    options := { baseOptions with
      LocalSize := 1, PopulationSize := 1, Parallelism := 1,
      Bounds := [⟨1, 4⟩], Inertia := 1, ParticleStep := 1,
      LocalStep := 1, GlobalStep := 1, StallLimit := 3, WaitMagnitude := 2,
      groupCount := 1 }
    positions := [[2]]
    velocities := [[1]]
    stallCount := [0]
    particleBestPosition := [[2]]
    particleBestFitness := [0]
    localBestPosition := [[2]]
    localBestFitness := [0]
    globalBestPosition := [2]
    globalBestFitness := 0
    averageFitness := 5 }

/-- A one-particle optimizer whose particle ties every recorded best at 5. -/
def optC3w : Optimizer :=
  { fitness := fun _ => 5
    shape := [⟨0, 1⟩]
    options := { baseOptions with
      LocalSize := 1, PopulationSize := 1, Parallelism := 1, Inertia := 1,
      ParticleStep := 1, LocalStep := 1, GlobalStep := 1, StallLimit := 3,
      WaitMagnitude := 2, groupCount := 1 }
    positions := [[2]]
    velocities := [[0]]
    stallCount := [0]
    particleBestPosition := [[2]]
    particleBestFitness := [5]
    localBestPosition := [[2]]
    localBestFitness := [5]
    globalBestPosition := [2]
    globalBestFitness := 5
    averageFitness := 0 }

/-- A one-particle optimizer sitting OUTSIDE its `Bounds = [⟨1, 4⟩]` at
position 10 with velocity 0: the update rule clips it back to 4. -/
def optC4w : Optimizer :=
  { fitness := fun _ => 7
    shape := [⟨0, 1⟩]
    options := { baseOptions with
      LocalSize := 1, PopulationSize := 1, Parallelism := 1,
      Bounds := [⟨1, 4⟩], Inertia := 1, ParticleStep := 1, LocalStep := 1,
      GlobalStep := 1, StallLimit := 3, WaitMagnitude := 2, groupCount := 1 }
    positions := [[10]]
    velocities := [[0]]
    stallCount := [0]
    particleBestPosition := [[10]]
    particleBestFitness := [1000]
    localBestPosition := [[10]]
    localBestFitness := [1000]
    globalBestPosition := [10]
    globalBestFitness := 1000
    averageFitness := 0 }

/-- A one-particle optimizer with an always-false constraint, for the
infeasibility claim. -/
def optC6w : Optimizer :=
  { fitness := fun _ => 0
    shape := [⟨0, 1⟩]
    options := { baseOptions with
      LocalSize := 1, PopulationSize := 1, Parallelism := 1,
      Constraints := [fun _ => false], Inertia := 1, ParticleStep := 1,
      LocalStep := 1, GlobalStep := 1, StallLimit := 3, WaitMagnitude := 2,
      groupCount := 1 }
    positions := [[1]]
    velocities := [[1]]
    stallCount := [0]
    particleBestPosition := [[1]]
    particleBestFitness := [1000]
    localBestPosition := [[1]]
    localBestFitness := [1000]
    globalBestPosition := [1]
    globalBestFitness := 1000
    averageFitness := 0 }

/-- An optimizer with `PopulationSize = 0`, on which `Step` is the identity:
it stands in for the spec's "controller state constructed by hand". -/
def optZero : Optimizer :=
  { fitness := fun _ => 0
    shape := [⟨0, 1⟩]
    options := { baseOptions with
      LocalSize := 1, Parallelism := 1, Inertia := 1, ParticleStep := 1,
      LocalStep := 1, GlobalStep := 1, StallLimit := 3, WaitMagnitude := 1,
      groupCount := 1 }
    positions := []
    velocities := []
    stallCount := []
    particleBestPosition := []
    particleBestFitness := []
    localBestPosition := []
    localBestFitness := []
    globalBestPosition := []
    globalBestFitness := 0
    averageFitness := 0 }

/-- Options with an explicit `PopulationSize = 1` below the defaulted
`LocalSize = 25`. -/
def optsC7 : Options := { baseOptions with PopulationSize := 1 }

/-! ### Helper lemmas -/

/-- Reading an updated list: `set` only changes an in-range entry. -/
theorem getD_set {α : Type} (l : List α) (i j : ℕ) (v d : α) :
    (l.set i v).getD j d = if i = j ∧ i < l.length then v else l.getD j d := by
  rw [List.getD_eq_getElem?_getD, List.getD_eq_getElem?_getD, List.getElem?_set]
  by_cases h1 : i = j
  · subst h1
    by_cases h2 : i < l.length
    · simp [h2]
    · simp [h2, List.getElem?_eq_none (le_of_not_lt h2)]
  · simp [h1]

theorem applyResult_positions (st : Optimizer) (avg count : ℚ) (idx : ℕ) :
    (applyResult st avg count idx).1.positions = st.positions := by
  unfold applyResult
  cases h : getParticleFitness st idx <;> simp only [h] <;> split_ifs <;> rfl

theorem applyResult_options (st : Optimizer) (avg count : ℚ) (idx : ℕ) :
    (applyResult st avg count idx).1.options = st.options := by
  unfold applyResult
  cases h : getParticleFitness st idx <;> simp only [h] <;> split_ifs <;> rfl

theorem applyResult_velocities (st : Optimizer) (avg count : ℚ) (idx : ℕ) :
    (applyResult st avg count idx).1.velocities = st.velocities := by
  unfold applyResult
  cases h : getParticleFitness st idx <;> simp only [h] <;> split_ifs <;> rfl

theorem applyResult_fitness (st : Optimizer) (avg count : ℚ) (idx : ℕ) :
    (applyResult st avg count idx).1.fitness = st.fitness := by
  unfold applyResult
  cases h : getParticleFitness st idx <;> simp only [h] <;> split_ifs <;> rfl

theorem updateFitness_eq_aggFold (opt : Optimizer) :
    updateFitness opt =
      { (aggFold (List.range opt.options.PopulationSize) (opt, 0, 0)).1 with
        averageFitness := (aggFold (List.range opt.options.PopulationSize) (opt, 0, 0)).2.1 /
          (aggFold (List.range opt.options.PopulationSize) (opt, 0, 0)).2.2 } := rfl

theorem aggFold_positions (l : List ℕ) : ∀ (st : Optimizer) (a c : ℚ),
    (aggFold l (st, a, c)).1.positions = st.positions := by
  induction l with
  | nil => intro st a c; rfl
  | cons hd tl ih =>
    intro st a c
    have h := ih (applyResult st a c hd).1 (applyResult st a c hd).2.1 (applyResult st a c hd).2.2
    calc (aggFold (hd :: tl) (st, a, c)).1.positions
        = (aggFold tl (applyResult st a c hd)).1.positions := rfl
      _ = (applyResult st a c hd).1.positions := h
      _ = st.positions := applyResult_positions st a c hd

theorem aggFold_options (l : List ℕ) : ∀ (st : Optimizer) (a c : ℚ),
    (aggFold l (st, a, c)).1.options = st.options := by
  induction l with
  | nil => intro st a c; rfl
  | cons hd tl ih =>
    intro st a c
    have h := ih (applyResult st a c hd).1 (applyResult st a c hd).2.1 (applyResult st a c hd).2.2
    calc (aggFold (hd :: tl) (st, a, c)).1.options
        = (aggFold tl (applyResult st a c hd)).1.options := rfl
      _ = (applyResult st a c hd).1.options := h
      _ = st.options := applyResult_options st a c hd

theorem aggFold_velocities (l : List ℕ) : ∀ (st : Optimizer) (a c : ℚ),
    (aggFold l (st, a, c)).1.velocities = st.velocities := by
  induction l with
  | nil => intro st a c; rfl
  | cons hd tl ih =>
    intro st a c
    have h := ih (applyResult st a c hd).1 (applyResult st a c hd).2.1 (applyResult st a c hd).2.2
    calc (aggFold (hd :: tl) (st, a, c)).1.velocities
        = (aggFold tl (applyResult st a c hd)).1.velocities := rfl
      _ = (applyResult st a c hd).1.velocities := h
      _ = st.velocities := applyResult_velocities st a c hd

theorem updateFitness_positions (opt : Optimizer) :
    (updateFitness opt).positions = opt.positions :=
  aggFold_positions _ opt 0 0

theorem updateFitness_options (opt : Optimizer) :
    (updateFitness opt).options = opt.options :=
  aggFold_options _ opt 0 0

theorem updateFitness_velocities (opt : Optimizer) :
    (updateFitness opt).velocities = opt.velocities :=
  aggFold_velocities _ opt 0 0

theorem getD_set_le {l : List ℚ} {k i : ℕ} {f : ℚ} (hf : f < l.getD k 0) :
    (l.set k f).getD i 0 ≤ l.getD i 0 := by
  rw [getD_set]
  split_ifs with h
  · obtain ⟨rfl, _⟩ := h
    exact le_of_lt hf
  · exact le_refl _

theorem applyResult_pbf_le (st : Optimizer) (avg count : ℚ) (idx i : ℕ) :
    (applyResult st avg count idx).1.particleBestFitness.getD i 0 ≤
      st.particleBestFitness.getD i 0 := by
  unfold applyResult
  cases h : getParticleFitness st idx
  · exact le_refl _
  · simp only []
    split_ifs <;>
      first
        | exact le_refl _
        | exact getD_set_le (by assumption)

theorem applyResult_lbf_le (st : Optimizer) (avg count : ℚ) (idx i : ℕ) :
    (applyResult st avg count idx).1.localBestFitness.getD i 0 ≤
      st.localBestFitness.getD i 0 := by
  unfold applyResult
  cases h : getParticleFitness st idx
  · exact le_refl _
  · simp only []
    split_ifs <;>
      first
        | exact le_refl _
        | exact getD_set_le (by assumption)

theorem applyResult_gbf_le (st : Optimizer) (avg count : ℚ) (idx : ℕ) :
    (applyResult st avg count idx).1.globalBestFitness ≤ st.globalBestFitness := by
  unfold applyResult
  cases h : getParticleFitness st idx
  · exact le_refl _
  · simp only []
    split_ifs <;>
      first
        | exact le_refl _
        | exact le_of_lt (by assumption)

theorem aggFold_pbf_le (l : List ℕ) : ∀ (st : Optimizer) (a c : ℚ) (i : ℕ),
    (aggFold l (st, a, c)).1.particleBestFitness.getD i 0 ≤
      st.particleBestFitness.getD i 0 := by
  induction l with
  | nil => intro st a c i; exact le_refl _
  | cons hd tl ih =>
    intro st a c i
    have h := ih (applyResult st a c hd).1 (applyResult st a c hd).2.1 (applyResult st a c hd).2.2 i
    exact le_trans h (applyResult_pbf_le st a c hd i)

theorem aggFold_lbf_le (l : List ℕ) : ∀ (st : Optimizer) (a c : ℚ) (i : ℕ),
    (aggFold l (st, a, c)).1.localBestFitness.getD i 0 ≤
      st.localBestFitness.getD i 0 := by
  induction l with
  | nil => intro st a c i; exact le_refl _
  | cons hd tl ih =>
    intro st a c i
    have h := ih (applyResult st a c hd).1 (applyResult st a c hd).2.1 (applyResult st a c hd).2.2 i
    exact le_trans h (applyResult_lbf_le st a c hd i)

theorem aggFold_gbf_le (l : List ℕ) : ∀ (st : Optimizer) (a c : ℚ),
    (aggFold l (st, a, c)).1.globalBestFitness ≤ st.globalBestFitness := by
  induction l with
  | nil => intro st a c; exact le_refl _
  | cons hd tl ih =>
    intro st a c
    have h := ih (applyResult st a c hd).1 (applyResult st a c hd).2.1 (applyResult st a c hd).2.2
    exact le_trans h (applyResult_gbf_le st a c hd)

/-- The update rule never touches any recorded best fitness. -/
theorem stepBody_pbf (o : Optimizer) (r : ℚ × ℚ × ℚ) (idx : ℕ) :
    (stepBody o r idx).particleBestFitness = o.particleBestFitness := rfl

theorem stepBody_lbf (o : Optimizer) (r : ℚ × ℚ × ℚ) (idx : ℕ) :
    (stepBody o r idx).localBestFitness = o.localBestFitness := rfl

theorem stepBody_gbf (o : Optimizer) (r : ℚ × ℚ × ℚ) (idx : ℕ) :
    (stepBody o r idx).globalBestFitness = o.globalBestFitness := rfl

theorem stepBody_options (o : Optimizer) (r : ℚ × ℚ × ℚ) (idx : ℕ) :
    (stepBody o r idx).options = o.options := rfl

theorem stepUpdate_eq_updFold (o : Optimizer) (rnd : ℕ → ℚ × ℚ × ℚ) :
    stepUpdate o rnd = updFold rnd (List.range o.options.PopulationSize) o := rfl

theorem updFold_pbf (rnd : ℕ → ℚ × ℚ × ℚ) (l : List ℕ) : ∀ (o : Optimizer),
    (updFold rnd l o).particleBestFitness = o.particleBestFitness := by
  induction l with
  | nil => intro o; rfl
  | cons hd tl ih => intro o; exact (ih (stepBody o (rnd hd) hd)).trans (stepBody_pbf o _ hd)

theorem updFold_lbf (rnd : ℕ → ℚ × ℚ × ℚ) (l : List ℕ) : ∀ (o : Optimizer),
    (updFold rnd l o).localBestFitness = o.localBestFitness := by
  induction l with
  | nil => intro o; rfl
  | cons hd tl ih => intro o; exact (ih (stepBody o (rnd hd) hd)).trans (stepBody_lbf o _ hd)

theorem updFold_gbf (rnd : ℕ → ℚ × ℚ × ℚ) (l : List ℕ) : ∀ (o : Optimizer),
    (updFold rnd l o).globalBestFitness = o.globalBestFitness := by
  induction l with
  | nil => intro o; rfl
  | cons hd tl ih => intro o; exact (ih (stepBody o (rnd hd) hd)).trans (stepBody_gbf o _ hd)

theorem updFold_options (rnd : ℕ → ℚ × ℚ × ℚ) (l : List ℕ) : ∀ (o : Optimizer),
    (updFold rnd l o).options = o.options := by
  induction l with
  | nil => intro o; rfl
  | cons hd tl ih => intro o; exact (ih (stepBody o (rnd hd) hd)).trans (stepBody_options o _ hd)

theorem StepO_options (opt : Optimizer) (rnd : ℕ → ℚ × ℚ × ℚ) :
    (StepO opt rnd).options = opt.options := by
  rw [StepO, stepUpdate_eq_updFold, updFold_options, updateFitness_options]

/-- A coordinate clipped to a well-formed, non-sentinel Range lies inside it. -/
theorem Clip_mem (b : Range) (hns : ¬(b.lo = 0 ∧ b.hi = 0)) (hle : b.lo ≤ b.hi) (y : ℚ) :
    b.lo ≤ b.Clip y ∧ b.Clip y ≤ b.hi := by
  unfold Range.Clip
  rw [if_neg hns]
  split_ifs with h1 h2
  · exact ⟨le_refl _, hle⟩
  · exact ⟨hle, le_refl _⟩
  · exact ⟨le_of_not_lt h1, le_of_not_lt h2⟩

theorem applyBoundsClip_length (bounds : List Range) (old np : Vec) :
    (applyBoundsClip bounds old np).length = old.length := by
  unfold applyBoundsClip
  rw [List.length_map, List.enum_length]

theorem applyBoundsClip_getD (bounds : List Range) (old np : Vec) (j : ℕ)
    (hb : j < bounds.length) (ho : j < old.length) :
    (applyBoundsClip bounds old np).getD j 0 =
      (bounds.getD j ⟨0, 0⟩).Clip (np.getD j 0) := by
  unfold applyBoundsClip
  have hj : j < (old.enum.map fun p =>
      match bounds.get? p.1 with
      | some b => b.Clip (np.getD p.1 0)
      | none => p.2).length := by
    rw [List.length_map, List.enum_length]; exact ho
  rw [List.getD_eq_getElem?_getD, List.getElem?_eq_getElem hj]
  rw [List.getElem_map, List.getElem_enum]
  have hget : bounds.get? j = some (bounds.getD j ⟨0, 0⟩) := by
    rw [List.get?_eq_getElem?, List.getElem?_eq_getElem hb,
      List.getD_eq_getElem?_getD, List.getElem?_eq_getElem hb]
    rfl
  rw [hget]
  rfl

theorem applyBoundsClip_clipped (bounds : List Range) (old np : Vec) :
    ClippedVec bounds (applyBoundsClip bounds old np) := by
  intro j hb hlen
  rw [applyBoundsClip_length] at hlen
  exact ⟨np.getD j 0, applyBoundsClip_getD bounds old np j hb hlen⟩

theorem stepBody_positions_getD_ne (o : Optimizer) (r : ℚ × ℚ × ℚ) (idx i : ℕ)
    (h : idx ≠ i) : (stepBody o r idx).positions.getD i [] = o.positions.getD i [] := by
  show ((o.positions.set idx _).getD i []) = _
  rw [getD_set]
  simp [h]

theorem stepBody_positions_length (o : Optimizer) (r : ℚ × ℚ × ℚ) (idx : ℕ) :
    (stepBody o r idx).positions.length = o.positions.length :=
  List.length_set _ _ _

theorem updFold_positions_length (rnd : ℕ → ℚ × ℚ × ℚ) (l : List ℕ) : ∀ (o : Optimizer),
    (updFold rnd l o).positions.length = o.positions.length := by
  induction l with
  | nil => intro o; rfl
  | cons hd tl ih =>
    intro o
    exact (ih (stepBody o (rnd hd) hd)).trans (stepBody_positions_length o _ hd)

theorem updFold_positions_getD_not_mem (rnd : ℕ → ℚ × ℚ × ℚ) (l : List ℕ) :
    ∀ (o : Optimizer) (idx : ℕ), idx ∉ l →
      (updFold rnd l o).positions.getD idx [] = o.positions.getD idx [] := by
  induction l with
  | nil => intro o idx _; rfl
  | cons hd tl ih =>
    intro o idx hmem
    have h1 : idx ∉ tl := fun h => hmem (List.mem_cons_of_mem hd h)
    have h2 : hd ≠ idx := fun h => hmem (h ▸ List.mem_cons_self hd tl)
    exact (ih (stepBody o (rnd hd) hd) idx h1).trans
      (stepBody_positions_getD_ne o (rnd hd) hd idx h2)

/-- Every particle index processed by the update-rule loop ends the loop with
a position vector whose bounded coordinates are `Clip` values. -/
theorem updFold_positions_clipped (rnd : ℕ → ℚ × ℚ × ℚ) (l : List ℕ) :
    ∀ (o : Optimizer) (idx : ℕ), idx ∈ l → idx < o.positions.length →
      ClippedVec o.options.Bounds ((updFold rnd l o).positions.getD idx []) := by
  induction l with
  | nil => intro o idx h; exact absurd h (List.not_mem_nil idx)
  | cons hd tl ih =>
    intro o idx hmem hlen
    by_cases hm : idx ∈ tl
    · have hlen' : idx < (stepBody o (rnd hd) hd).positions.length := by
        rw [stepBody_positions_length]; exact hlen
      have h := ih (stepBody o (rnd hd) hd) idx hm hlen'
      rw [stepBody_options] at h
      exact h
    · have Hidx : idx = hd := by
        rcases List.mem_cons.mp hmem with h | h
        · exact h
        · exact absurd h hm
      subst Hidx
      have hrw : (updFold rnd (idx :: tl) o).positions.getD idx [] =
          (stepBody o (rnd idx) idx).positions.getD idx [] :=
        updFold_positions_getD_not_mem rnd tl (stepBody o (rnd idx) idx) idx hm
      rw [hrw]
      show ClippedVec o.options.Bounds ((o.positions.set idx _).getD idx [])
      rw [getD_set]
      simp only [hlen, and_true, if_pos rfl]
      exact applyBoundsClip_clipped _ _ _

/-- Entry lengths of `positions` are preserved by the update-rule loop. -/
theorem updFold_positions_getD_length (rnd : ℕ → ℚ × ℚ × ℚ) (l : List ℕ) :
    ∀ (o : Optimizer) (i : ℕ),
      ((updFold rnd l o).positions.getD i []).length = (o.positions.getD i []).length := by
  induction l with
  | nil => intro o i; rfl
  | cons hd tl ih =>
    intro o i
    refine (ih (stepBody o (rnd hd) hd) i).trans ?_
    show ((o.positions.set hd _).getD i []).length = _
    rw [getD_set]
    split_ifs with h
    · obtain ⟨rfl, _⟩ := h
      exact applyBoundsClip_length _ _ _
    · rfl

/-- A constraint that rejects the particle's position makes it infeasible. -/
theorem getParticleFitness_none_of_constraint (st : Optimizer) (idx : ℕ)
    (c : Vec → Bool) (hc : c ∈ st.options.Constraints)
    (hf : c (st.positions.getD idx []) = false) :
    getParticleFitness st idx = none := by
  unfold getParticleFitness
  have hall : st.options.Constraints.all (fun cc => cc (st.positions.getD idx [])) = false := by
    rw [List.all_eq_false]
    exact ⟨c, hc, by rw [hf]; exact Bool.false_ne_true⟩
  simp only [hall, Bool.and_false, Bool.false_eq_true, if_false]

/-- With an always-false constraint the aggregation pass leaves the global
best fitness untouched. -/
theorem aggFold_gbf_of_false_constraint (l : List ℕ) : ∀ (st : Optimizer) (a cnt : ℚ)
    (c : Vec → Bool), c ∈ st.options.Constraints → (∀ p, c p = false) →
    (aggFold l (st, a, cnt)).1.globalBestFitness = st.globalBestFitness := by
  induction l with
  | nil => intro st a cnt c _ _; rfl
  | cons hd tl ih =>
    intro st a cnt c hc hf
    have hnone := getParticleFitness_none_of_constraint st hd c hc (hf _)
    have happ : applyResult st a cnt hd =
        ({ st with stallCount := st.stallCount.set hd (st.stallCount.getD hd 0 + 1) }, a, cnt) := by
      unfold applyResult
      rw [hnone]
    calc (aggFold (hd :: tl) (st, a, cnt)).1.globalBestFitness
        = (aggFold tl (applyResult st a cnt hd)).1.globalBestFitness := rfl
      _ = st.globalBestFitness := by
          rw [happ]
          exact ih _ a cnt c hc hf

theorem updateFitness_gbf_of_false_constraint (opt : Optimizer) (c : Vec → Bool)
    (hc : c ∈ opt.options.Constraints) (hf : ∀ p, c p = false) :
    (updateFitness opt).globalBestFitness = opt.globalBestFitness := by
  rw [updateFitness_eq_aggFold]
  exact aggFold_gbf_of_false_constraint _ opt 0 0 c hc hf

theorem StepO_gbf_of_false_constraint (opt : Optimizer) (rnd : ℕ → ℚ × ℚ × ℚ)
    (c : Vec → Bool) (hc : c ∈ opt.options.Constraints) (hf : ∀ p, c p = false) :
    (StepO opt rnd).globalBestFitness = opt.globalBestFitness := by
  rw [StepO, stepUpdate_eq_updFold, updFold_gbf]
  exact updateFitness_gbf_of_false_constraint opt c hc hf

/-! ### Facts about the stall-detection stop test -/

theorem logb_ten_self : Real.logb 10 10 = 1 :=
  Real.logb_self_eq_one (by norm_num)

theorem logb_fifty_gt_one : (1 : ℝ) < Real.logb 10 50 := by
  rw [← logb_ten_self]
  exact Real.logb_lt_logb (by norm_num) (by norm_num) (by norm_num)

theorem logb_two_lt_one : Real.logb 10 2 < 1 := by
  rw [← logb_ten_self]
  exact Real.logb_lt_logb (by norm_num) (by norm_num) (by norm_num)

theorem stopCond_100_50 : stopCond 1 100 50 := by
  unfold stopCond
  push_cast
  constructor
  · exact logb_fifty_gt_one
  · have hdiv : Real.logb 10 (100 / 50) = Real.logb 10 100 - Real.logb 10 50 :=
      Real.logb_div (by norm_num) (by norm_num)
    have h2 : (100 : ℝ) / 50 = 2 := by norm_num
    rw [h2] at hdiv
    rw [← hdiv]
    exact logb_two_lt_one

theorem stopCond_not_100_2 : ¬ stopCond 1 100 2 := by
  unfold stopCond
  push_cast
  rintro ⟨h1, -⟩
  exact absurd (lt_trans h1 logb_two_lt_one) (lt_irrefl 1)

theorem stopCond_not_zero (W : ℚ) (t : ℕ) (ht : 1 ≤ t) : ¬ stopCond W t 0 := by
  unfold stopCond
  push_cast
  rw [Real.logb_zero]
  rintro ⟨h1, h2⟩
  have h3 : (0 : ℝ) ≤ Real.logb 10 t := by
    apply Real.logb_nonneg (by norm_num)
    exact_mod_cast ht
  linarith

/-- A failing Bounds check on any covered dimension makes the particle
infeasible. -/
theorem getParticleFitness_none_of_bounds (st : Optimizer) (idx j : ℕ)
    (hj : j < st.options.Bounds.length)
    (hf : (st.options.Bounds.getD j ⟨0, 0⟩).Contains
      ((st.positions.getD idx []).getD j 0) = false) :
    getParticleFitness st idx = none := by
  unfold getParticleFitness
  have hall : (st.options.Bounds.enum.all fun bi =>
      bi.2.Contains ((st.positions.getD idx []).getD bi.1 0)) = false := by
    rw [List.all_eq_false]
    refine ⟨(j, st.options.Bounds.getD j ⟨0, 0⟩), ?_, ?_⟩
    · have hj' : j < st.options.Bounds.enum.length := by
        rw [List.enum_length]; exact hj
      have hval : st.options.Bounds.enum[j] = (j, st.options.Bounds.getD j ⟨0, 0⟩) := by
        rw [List.getElem_enum]
        rw [List.getD_eq_getElem?_getD, List.getElem?_eq_getElem hj]
        rfl
      rw [← hval]
      exact List.getElem_mem hj'
    · rw [hf]
      exact Bool.false_ne_true
  simp only [hall, Bool.false_and, Bool.false_eq_true, if_false]

theorem stepN_options (opt : Optimizer) (rnd : ℕ → ℕ → ℚ × ℚ × ℚ) : ∀ (n : ℕ),
    (stepN opt rnd n).options = opt.options := by
  intro n
  induction n with
  | zero => rfl
  | succ n ih => rw [stepN, StepO_options, ih]

theorem stepN_gbf_of_false_constraint (opt : Optimizer) (rnd : ℕ → ℕ → ℚ × ℚ × ℚ)
    (c : Vec → Bool) (hc : c ∈ opt.options.Constraints) (hf : ∀ p, c p = false) :
    ∀ (n : ℕ), (stepN opt rnd n).globalBestFitness = opt.globalBestFitness := by
  intro n
  induction n with
  | zero => rfl
  | succ n ih =>
    rw [stepN, StepO_gbf_of_false_constraint _ _ c _ hf, ih]
    rw [stepN_options]
    exact hc

/-! ### Claim theorems -/

/-- Claim C3: for every optimizer and every step, each particle's
personal-best fitness, each group's best fitness and the global-best
fitness are monotonically non-increasing; a best is replaced only by a
strictly lower recorded fitness, and a tie (or any non-improving fitness)
leaves both the best fitness and the best position of that level
unchanged. -/
theorem C3_bests_monotone :
    (∀ (opt : Optimizer) (rnd : ℕ → ℚ × ℚ × ℚ) (i : ℕ),
      (StepO opt rnd).particleBestFitness.getD i 0 ≤ opt.particleBestFitness.getD i 0 ∧
      (StepO opt rnd).localBestFitness.getD i 0 ≤ opt.localBestFitness.getD i 0 ∧
      (StepO opt rnd).globalBestFitness ≤ opt.globalBestFitness) ∧
    (∀ (st : Optimizer) (avg count : ℚ) (idx : ℕ) (f : ℚ),
      getParticleFitness st idx = some f →
      (¬ f < st.particleBestFitness.getD idx 0 →
        (applyResult st avg count idx).1.particleBestFitness = st.particleBestFitness ∧
        (applyResult st avg count idx).1.particleBestPosition = st.particleBestPosition) ∧
      (¬ f < st.localBestFitness.getD (idx % st.options.groupCount) 0 →
        (applyResult st avg count idx).1.localBestFitness = st.localBestFitness ∧
        (applyResult st avg count idx).1.localBestPosition = st.localBestPosition) ∧
      (¬ f < st.globalBestFitness →
        (applyResult st avg count idx).1.globalBestFitness = st.globalBestFitness ∧
        (applyResult st avg count idx).1.globalBestPosition = st.globalBestPosition)) := by
  constructor
  · intro opt rnd i
    refine ⟨?_, ?_, ?_⟩
    · have h : (StepO opt rnd).particleBestFitness =
          (aggFold (List.range opt.options.PopulationSize) (opt, 0, 0)).1.particleBestFitness := by
        rw [StepO, stepUpdate_eq_updFold, updFold_pbf]
        rfl
      rw [h]
      exact aggFold_pbf_le _ opt 0 0 i
    · have h : (StepO opt rnd).localBestFitness =
          (aggFold (List.range opt.options.PopulationSize) (opt, 0, 0)).1.localBestFitness := by
        rw [StepO, stepUpdate_eq_updFold, updFold_lbf]
        rfl
      rw [h]
      exact aggFold_lbf_le _ opt 0 0 i
    · have h : (StepO opt rnd).globalBestFitness =
          (aggFold (List.range opt.options.PopulationSize) (opt, 0, 0)).1.globalBestFitness := by
        rw [StepO, stepUpdate_eq_updFold, updFold_gbf]
        rfl
      rw [h]
      exact aggFold_gbf_le _ opt 0 0
  · intro st avg count idx f h
    refine ⟨?_, ?_, ?_⟩ <;> intro hn <;>
      (unfold applyResult; simp only [h]; split_ifs <;>
        first
          | exact absurd (by assumption) hn
          | exact ⟨rfl, rfl⟩)

/-- Claim C3 witness: a particle recording fitness 5 against personal,
group and global bests that all equal 5 updates none of them, and a step
leaves the global best non-increasing. -/
theorem C3_witness :
    ((applyResult optC3w 0 0 0).1.particleBestFitness = optC3w.particleBestFitness ∧
      (applyResult optC3w 0 0 0).1.particleBestPosition = optC3w.particleBestPosition) ∧
    ((applyResult optC3w 0 0 0).1.localBestFitness = optC3w.localBestFitness ∧
      (applyResult optC3w 0 0 0).1.localBestPosition = optC3w.localBestPosition) ∧
    ((applyResult optC3w 0 0 0).1.globalBestFitness = optC3w.globalBestFitness ∧
      (applyResult optC3w 0 0 0).1.globalBestPosition = optC3w.globalBestPosition) ∧
    (StepO optC3w rndZero3).globalBestFitness ≤ optC3w.globalBestFitness := by
  have hf : getParticleFitness optC3w 0 = some 5 := rfl
  have h2 := C3_bests_monotone.2 optC3w 0 0 0 5 hf
  have hn1 : ¬ (5 : ℚ) < optC3w.particleBestFitness.getD 0 0 := by
    norm_num [optC3w]
  have hn2 : ¬ (5 : ℚ) < optC3w.localBestFitness.getD (0 % optC3w.options.groupCount) 0 := by
    norm_num [optC3w]
  have hn3 : ¬ (5 : ℚ) < optC3w.globalBestFitness := by
    norm_num [optC3w]
  exact ⟨h2.1 hn1, h2.2.1 hn2, h2.2.2 hn3,
    (C3_bests_monotone.1 optC3w rndZero3 0).2.2⟩

/-- Claim C5: `Best`, `Reset` and `StepUntil` on a nil optimizer handle are
safe no-ops returning the zero value; `Step` on a nil handle, however, is
NOT a no-op: after the nil-guarded `updateFitness` returns, the loop bound
`int(opt.options.PopulationSize)` dereferences the nil receiver (a runtime
panic, modelled as `Except.error`).  This theorem records both the three
no-ops the claim gets right and the code's behavior at the claim's failing
input. -/
theorem C5_nil_handle :
    BestH none = none ∧
    (∀ rnd : ℕ → ℕ → ℚ × ℚ, ResetH rnd none = none) ∧
    (∀ (rnd : ℕ → ℕ → ℚ × ℚ × ℚ) (rate : ℚ) (fuel : ℕ), StepUntilH rnd rate fuel none = 0) ∧
    (∀ rnd : ℕ → ℚ × ℚ × ℚ, StepH rnd none = Except.error ()) :=
  ⟨rfl, fun _ => rfl, fun _ _ _ => rfl, fun _ => rfl⟩

/-- Claim C9: the zero Range is the unbounded sentinel (`Contains` always
true, `Clip` the identity); every other Range has inclusive `Contains` and
a `Clip` that saturates: `lo` below, `hi` above (given `lo ≤ hi`), identity
inside. -/
theorem C9_range_contains_clip :
    (∀ x : ℚ, Range.Contains ⟨0, 0⟩ x = true ∧ Range.Clip ⟨0, 0⟩ x = x) ∧
    (∀ (r : Range) (x : ℚ), ¬(r.lo = 0 ∧ r.hi = 0) →
      (r.Contains x = true ↔ r.lo ≤ x ∧ x ≤ r.hi) ∧
      (x < r.lo → r.Clip x = r.lo) ∧
      (r.lo ≤ r.hi → r.hi < x → r.Clip x = r.hi) ∧
      (r.lo ≤ x → x ≤ r.hi → r.Clip x = x)) := by
  constructor
  · intro x
    constructor <;> simp [Range.Contains, Range.Clip]
  · intro r x h
    refine ⟨?_, ?_, ?_, ?_⟩
    · unfold Range.Contains
      rw [if_neg h]
      by_cases h2 : x < r.lo ∨ r.hi < x
      · rw [if_pos h2]
        simp only [Bool.false_eq_true, false_iff]
        rintro ⟨ha, hb⟩
        rcases h2 with h2 | h2
        · exact absurd ha (not_le.mpr h2)
        · exact absurd hb (not_le.mpr h2)
      · rw [if_neg h2]
        push_neg at h2
        simp [h2.1, h2.2]
    · intro hx
      unfold Range.Clip
      rw [if_neg h, if_pos hx]
    · intro hle hx
      unfold Range.Clip
      rw [if_neg h, if_neg (not_lt.mpr (le_of_lt (lt_of_le_of_lt hle hx))), if_pos hx]
    · intro h1 h2
      unfold Range.Clip
      rw [if_neg h, if_neg (not_lt.mpr h1), if_neg (not_lt.mpr h2)]

/-- Claim C9 witness: concrete instances of the sentinel behavior and of
both-inclusive containment and saturation on the Range [1, 4]. -/
theorem C9_witness :
    (Range.Contains ⟨0, 0⟩ 7 = true ∧ Range.Clip ⟨0, 0⟩ 7 = 7) ∧
    (Range.Contains ⟨1, 4⟩ 5 = true ↔ (1 : ℚ) ≤ 5 ∧ (5 : ℚ) ≤ 4) ∧
    Range.Clip ⟨1, 4⟩ 0 = 1 ∧
    Range.Clip ⟨1, 4⟩ 5 = 4 ∧
    Range.Clip ⟨1, 4⟩ 3 = 3 := by
  have hns : ¬((⟨1, 4⟩ : Range).lo = 0 ∧ (⟨1, 4⟩ : Range).hi = 0) := by
    norm_num
  have h2 := C9_range_contains_clip.2 ⟨1, 4⟩
  exact ⟨C9_range_contains_clip.1 7,
    (h2 5 hns).1,
    (h2 0 hns).2.1 (by norm_num),
    (h2 5 hns).2.2.1 (by norm_num) (by norm_num),
    (h2 3 hns).2.2.2 (by norm_num) (by norm_num)⟩

/-- Claim C7 counterexample: `New` with an explicitly supplied
`PopulationSize = 1` (below the defaulted `LocalSize = 25`) resolves
`groupCount = 1 / 25 = 0`, not `≥ 1`: the `idx % groupCount` used by
aggregation and the update rule is a division by zero (a Go panic). -/
theorem C7_counterexample :
    (New (fun _ => 0) [⟨0, 1⟩] optsC7 1 rndZero2).toOption.map
      (fun o => o.options.groupCount) = some 0 := rfl

/-- Claim C7 (amended): the resolved `groupCount` is at least 1 whenever
`PopulationSize` is left to default (and the defaulting product does not
wrap `uint64` / the Go `int` cast, i.e. stays below `2^63`), or the
caller-supplied `PopulationSize` is at least the effective `LocalSize` (and
below `2^63`, keeping the ℕ-modelled `groupCount` equal to Go's
`int(PopulationSize / LocalSize)`); a caller-supplied `PopulationSize`
strictly between 0 and `LocalSize` instead yields `groupCount = 0`. -/
theorem C7_groupCount_amended (fitness : Vec → ℚ) (shape : List Range) (opts : Options)
    (gomax : ℕ) (rnd : ℕ → ℕ → ℚ × ℚ) (o : Optimizer)
    (hok : New fitness shape opts gomax rnd = Except.ok o)
    (hcase : (opts.PopulationSize = 0 ∧
        10 * (if opts.LocalSize = 0 then 25 else opts.LocalSize) * shape.length < 2 ^ 63) ∨
      ((if opts.LocalSize = 0 then 25 else opts.LocalSize) ≤ opts.PopulationSize ∧
        opts.PopulationSize < 2 ^ 63)) :
    1 ≤ o.options.groupCount := by
  by_cases hlen : shape.length = 0
  · rw [New, if_pos hlen] at hok
    exact absurd hok (by simp)
  · rw [New, if_neg hlen] at hok
    have ho : o.options = resolveOptions opts shape.length gomax := by
      injection hok with h
      rw [← h]
      rfl
    rw [ho]
    show 1 ≤ (resolveOptions opts shape.length gomax).groupCount
    unfold resolveOptions
    have hls : 0 < (if opts.LocalSize = 0 then 25 else opts.LocalSize) := by
      split_ifs with h
      · norm_num
      · exact Nat.pos_of_ne_zero h
    rw [Nat.one_le_div_iff hls]
    rcases hcase with ⟨hps0, hlt⟩ | ⟨hge, -⟩
    · rw [if_pos hps0]
      rw [Nat.mod_eq_of_lt (lt_trans hlt (by norm_num))]
      have hd : 1 ≤ shape.length := Nat.pos_of_ne_zero hlen
      calc (if opts.LocalSize = 0 then 25 else opts.LocalSize)
          = (if opts.LocalSize = 0 then 25 else opts.LocalSize) * 1 := (Nat.mul_one _).symm
        _ ≤ (if opts.LocalSize = 0 then 25 else opts.LocalSize) * (10 * shape.length) := by
            apply Nat.mul_le_mul_left
            omega
        _ = 10 * (if opts.LocalSize = 0 then 25 else opts.LocalSize) * shape.length := by ring
    · have hps : ¬ opts.PopulationSize = 0 := by omega
      rw [if_neg hps]
      exact hge

/-- Claim C7 witness: with all options left unset and a 1-dimensional
shape, the defaulting rules give `groupCount = 250 / 25 = 10 ≥ 1`. -/
theorem C7_witness :
    ∃ o, New (fun _ => 0) [⟨0, 1⟩] baseOptions 1 rndZero2 = Except.ok o ∧
      1 ≤ o.options.groupCount := by
  refine ⟨_, rfl, ?_⟩
  exact C7_groupCount_amended (fun _ => 0) [⟨0, 1⟩] baseOptions 1 rndZero2 _ rfl
    (Or.inl ⟨rfl, by decide⟩)

/-- Claim C6: an infeasible particle (failing a Bounds `Contains` check on a
covered dimension, or rejected by any Constraint) records no fitness; its
aggregation turn only increments its stall count — no personal/group/global
best and no average-fitness accumulator changes; `Reset` seeds the global
best fitness at `math.MaxFloat64` (the worst-possible value standing in for
the spec's +∞); and when a constraint rejects every point, any number of
steps leaves the global best fitness at its initial value. -/
theorem C6_infeasible_particles :
    (∀ (st : Optimizer) (avg count : ℚ) (idx : ℕ),
      getParticleFitness st idx = none →
      applyResult st avg count idx =
        ({ st with stallCount := st.stallCount.set idx (st.stallCount.getD idx 0 + 1) },
          avg, count)) ∧
    (∀ (st : Optimizer) (idx j : ℕ),
      j < st.options.Bounds.length →
      (st.options.Bounds.getD j ⟨0, 0⟩).Contains
        ((st.positions.getD idx []).getD j 0) = false →
      getParticleFitness st idx = none) ∧
    (∀ (st : Optimizer) (idx : ℕ) (c : Vec → Bool),
      c ∈ st.options.Constraints → c (st.positions.getD idx []) = false →
      getParticleFitness st idx = none) ∧
    (∀ (opt : Optimizer) (rnd : ℕ → ℕ → ℚ × ℚ),
      (ResetO opt rnd).globalBestFitness = maxFloat64) ∧
    (∀ (opt : Optimizer) (rnd : ℕ → ℕ → ℚ × ℚ × ℚ) (n : ℕ) (c : Vec → Bool),
      c ∈ opt.options.Constraints → (∀ p, c p = false) →
      (stepN opt rnd n).globalBestFitness = opt.globalBestFitness) := by
  refine ⟨?_, ?_, ?_, ?_, ?_⟩
  · intro st avg count idx hnone
    unfold applyResult
    rw [hnone]
  · intro st idx j hj hf
    exact getParticleFitness_none_of_bounds st idx j hj hf
  · intro st idx c hc hf
    exact getParticleFitness_none_of_constraint st idx c hc hf
  · intro opt rnd
    rfl
  · intro opt rnd n c hc hf
    exact stepN_gbf_of_false_constraint opt rnd c hc hf n

/-- Claim C6 witness: the always-false-constraint particle of `optC6w`
records no fitness; its aggregation turn is exactly the stall-count bump;
and five steps leave the global best fitness at its initial 1000. -/
theorem C6_witness :
    getParticleFitness optC6w 0 = none ∧
    applyResult optC6w 0 0 0 = ({ optC6w with stallCount := [1] }, 0, 0) ∧
    (stepN optC6w rndZero23 5).globalBestFitness = 1000 := by
  have hmem : (fun _ => false) ∈ optC6w.options.Constraints :=
    List.mem_singleton.mpr rfl
  have hnone : getParticleFitness optC6w 0 = none :=
    C6_infeasible_particles.2.2.1 optC6w 0 (fun _ => false) hmem rfl
  refine ⟨hnone, ?_, ?_⟩
  · rw [C6_infeasible_particles.1 optC6w 0 0 0 hnone]
    rfl
  · rw [C6_infeasible_particles.2.2.2.2 optC6w rndZero23 5 (fun _ => false) hmem
      (fun _ => rfl)]
    rfl

/-- Claim C4: immediately after the update rule of any step, every particle
coordinate covered by a well-formed non-sentinel `Bounds` Range lies within
it. -/
theorem C4_bounds_invariant (opt : Optimizer) (rnd : ℕ → ℚ × ℚ × ℚ) (idx j : ℕ) (b : Range)
    (hidx : idx < opt.options.PopulationSize)
    (hlen : idx < opt.positions.length)
    (hj : j < opt.options.Bounds.length)
    (hb : opt.options.Bounds.getD j ⟨0, 0⟩ = b)
    (hns : ¬(b.lo = 0 ∧ b.hi = 0))
    (hwf : b.lo ≤ b.hi)
    (hdim : j < (opt.positions.getD idx []).length) :
    b.lo ≤ ((StepO opt rnd).positions.getD idx []).getD j 0 ∧
      ((StepO opt rnd).positions.getD idx []).getD j 0 ≤ b.hi := by
  have hpos : (updateFitness opt).positions = opt.positions := updateFitness_positions opt
  have hopts : (updateFitness opt).options = opt.options := updateFitness_options opt
  have hmem : idx ∈ List.range opt.options.PopulationSize :=
    List.mem_range.mpr hidx
  have hlen' : idx < (updateFitness opt).positions.length := by
    rw [hpos]
    exact hlen
  have hclip := updFold_positions_clipped rnd
    (List.range opt.options.PopulationSize) (updateFitness opt) idx hmem hlen'
  rw [hopts] at hclip
  have hstep : StepO opt rnd =
      updFold rnd (List.range opt.options.PopulationSize) (updateFitness opt) := by
    rw [StepO, stepUpdate_eq_updFold, hopts]
  rw [hstep]
  have hflen : ((updFold rnd (List.range opt.options.PopulationSize)
      (updateFitness opt)).positions.getD idx []).length =
      (opt.positions.getD idx []).length := by
    rw [updFold_positions_getD_length, hpos]
  obtain ⟨y, hy⟩ := hclip j hj (by rw [hflen]; exact hdim)
  rw [hy, hb]
  exact Clip_mem b hns hwf y

/-- Claim C4 witness: the particle of `optC4w` sits at 10, outside its
bounds [1, 4]; after one step its position coordinate lies inside [1, 4]. -/
theorem C4_witness :
    (1 : ℚ) ≤ ((StepO optC4w rndZero3).positions.getD 0 []).getD 0 0 ∧
    ((StepO optC4w rndZero3).positions.getD 0 []).getD 0 0 ≤ 4 :=
  C4_bounds_invariant optC4w rndZero3 0 0 ⟨1, 4⟩ (by decide) (by decide) (by decide) rfl
    (by norm_num) (by norm_num) (by decide)

/-- Claim C1 (code bug): with empty `Bounds` the update rule computes and
stores the new velocity v' = [1] but never moves the particle: the
write-back loop `for i, bounds := range opt.options.Bounds` covers no
dimension, so the position stays [1] instead of becoming pos + v' = [2]
(which `sum` would give).  The infeasible particle (always-false
constraint) still has its velocity updated, as the claim says — but its
position does not move even though the claim says it must. -/
theorem C1_position_frozen_without_bounds :
    optC1.options.Bounds = [] ∧
    (StepO optC1 rndZero3).velocities = [[1]] ∧
    (StepO optC1 rndZero3).positions = [[1]] ∧
    sum [optC1.positions.getD 0 [], [1]] = [2] := by
  have h1 : updateFitness optC1 = { optC1 with stallCount := [1] } := by
    simp only [updateFitness, optC1, baseOptions, List.range_succ, List.range_zero,
      List.nil_append, List.foldl_cons, List.foldl_nil, applyResult, getParticleFitness]
    norm_num [optC1]
  have h2 : stepUpdate { optC1 with stallCount := [1] } rndZero3 =
      { optC1 with
        stallCount := [1]
        velocities := [[1]]
        positions := [[1]]
        particleBestPosition := [[1]] } := by
    simp only [stepUpdate, stepBody, optC1, baseOptions, rndZero3, sum, sub, scale,
      applyBoundsClip, List.range_succ, List.range_zero, List.nil_append, List.foldl_cons,
      List.foldl_nil, List.enum, List.enumFrom, List.map_cons, List.map_nil,
      List.getD_cons_zero, List.getD_cons_succ, List.getD_nil, List.set_cons_zero,
      List.set_cons_succ, List.get?_cons_zero, List.get?_cons_succ, List.get?_nil,
      List.getElem?_nil, List.getElem?_cons_zero, List.getElem?_cons_succ,
      List.replicate_succ, List.replicate_zero]
    norm_num
  refine ⟨rfl, ?_, ?_, ?_⟩
  · rw [StepO, h1, h2]
  · rw [StepO, h1, h2]
  · simp only [sum, optC1, List.getD_cons_zero, List.foldl_cons, List.foldl_nil,
      List.enum, List.enumFrom, List.map_cons, List.map_nil, List.getD_nil,
      List.replicate_succ, List.replicate_zero, List.length_cons, List.length_nil]
    norm_num

/-- Claim C8 (code bug): `Reset` copies the `particleBestPosition` slice
HEADERS from `positions`, so every personal-best position permanently
aliases the particle's own position.  The particle of `optC8` records
fitness 5, which does not beat its personal best 0 — yet after the step its
personal-best position has moved from [2] to [3], tracking the particle's
own motion, while the personal-best fitness stays 0. -/
theorem C8_personal_best_aliases_position :
    getParticleFitness optC8 0 = some 5 ∧
    ¬ (5 : ℚ) < optC8.particleBestFitness.getD 0 0 ∧
    optC8.particleBestPosition = [[2]] ∧
    (StepO optC8 rndZero3).particleBestPosition = [[3]] ∧
    (StepO optC8 rndZero3).particleBestFitness = [0] := by
  have hgpf : getParticleFitness optC8 0 = some 5 := by
    simp only [getParticleFitness, optC8, baseOptions, Range.Contains, List.enum,
      List.enumFrom, List.all_cons, List.all_nil, List.getD_cons_zero]
    norm_num
  have h1 : updateFitness optC8 = optC8 := by
    simp only [updateFitness, optC8, baseOptions, List.range_succ, List.range_zero,
      List.nil_append, List.foldl_cons, List.foldl_nil, applyResult, getParticleFitness,
      Range.Contains, List.enum, List.enumFrom, List.all_cons, List.all_nil,
      List.getD_cons_zero]
    norm_num [optC8]
  have h2 : stepUpdate optC8 rndZero3 =
      { optC8 with
        velocities := [[1]]
        positions := [[3]]
        particleBestPosition := [[3]] } := by
    simp only [stepUpdate, stepBody, optC8, baseOptions, rndZero3, sum, sub, scale,
      applyBoundsClip, Range.Clip, List.range_succ, List.range_zero, List.nil_append,
      List.foldl_cons, List.foldl_nil, List.enum, List.enumFrom, List.map_cons,
      List.map_nil, List.getD_cons_zero, List.getD_cons_succ, List.getD_nil,
      List.set_cons_zero, List.set_cons_succ, List.get?_cons_zero, List.get?_cons_succ,
      List.get?_nil, List.getElem?_nil, List.getElem?_cons_zero, List.getElem?_cons_succ,
      List.replicate_succ, List.replicate_zero, copyVec]
    norm_num
  refine ⟨hgpf, ?_, rfl, ?_, ?_⟩
  · norm_num [optC8]
  · rw [StepO, h1, h2]
  · rw [StepO, h1, h2]
    rfl

/-- Claim C2: `StepUntil` takes one initial step and enters the loop with
`minProgressRate = |progressRate|` and one step counted; in each iteration,
if the global best improved by less than the rate the stagnation counter
`s` increments — and the loop returns the total step count exactly when
`log10 s > WaitMagnitude ∧ log10 t - log10 s < WaitMagnitude` — otherwise
`s` resets to 0 and the loop continues (the stop test, checked by the code
only after an increment, can never hold right after a reset, since
`log10 t ≥ 0` for `t ≥ 1`); concretely the stop test holds at
`t = 100, s = 50, W = 1` and fails at `s = 2`. -/
theorem C2_stepUntil_controller :
    (∀ (rnd : ℕ → ℕ → ℚ × ℚ × ℚ) (rate : ℚ) (fuel : ℕ) (opt : Optimizer),
      StepUntilH rnd rate fuel (some opt) =
        stepUntilLoop rnd |rate| fuel
          ⟨StepO opt (rnd 0), 1, (StepO opt (rnd 0)).globalBestFitness, 0⟩) ∧
    (∀ (rnd : ℕ → ℕ → ℚ × ℚ × ℚ) (minRate : ℚ) (fuel : ℕ) (c : CtrlState),
      c.last - (StepO c.opt (rnd c.steps)).globalBestFitness < minRate →
      ¬ stopCond (StepO c.opt (rnd c.steps)).options.WaitMagnitude
        (c.steps + 1) (c.sinceImprovement + 1) →
      stepUntilLoop rnd minRate (fuel + 1) c =
        stepUntilLoop rnd minRate fuel
          ⟨StepO c.opt (rnd c.steps), c.steps + 1,
            (StepO c.opt (rnd c.steps)).globalBestFitness, c.sinceImprovement + 1⟩) ∧
    (∀ (rnd : ℕ → ℕ → ℚ × ℚ × ℚ) (minRate : ℚ) (fuel : ℕ) (c : CtrlState),
      c.last - (StepO c.opt (rnd c.steps)).globalBestFitness < minRate →
      stopCond (StepO c.opt (rnd c.steps)).options.WaitMagnitude
        (c.steps + 1) (c.sinceImprovement + 1) →
      stepUntilLoop rnd minRate (fuel + 1) c = c.steps + 1) ∧
    (∀ (rnd : ℕ → ℕ → ℚ × ℚ × ℚ) (minRate : ℚ) (fuel : ℕ) (c : CtrlState),
      ¬ (c.last - (StepO c.opt (rnd c.steps)).globalBestFitness < minRate) →
      stepUntilLoop rnd minRate (fuel + 1) c =
        stepUntilLoop rnd minRate fuel
          ⟨StepO c.opt (rnd c.steps), c.steps + 1,
            (StepO c.opt (rnd c.steps)).globalBestFitness, 0⟩) ∧
    (∀ (W : ℚ) (t : ℕ), 1 ≤ t → ¬ stopCond W t 0) ∧
    stopCond 1 100 50 ∧
    ¬ stopCond 1 100 2 := by
  refine ⟨?_, ?_, ?_, ?_, ?_, ?_, ?_⟩
  · intro rnd rate fuel opt
    rfl
  · intro rnd minRate fuel c h1 h2
    simp only [stepUntilLoop]
    rw [if_pos h1, if_neg h2]
  · intro rnd minRate fuel c h1 h2
    simp only [stepUntilLoop]
    rw [if_pos h1, if_pos h2]
  · intro rnd minRate fuel c h1
    simp only [stepUntilLoop]
    rw [if_neg h1]
  · exact stopCond_not_zero
  · exact stopCond_100_50
  · exact stopCond_not_100_2

/-- Claim C2 witness: on the hand-built controller state with `t = 99`,
`s = 49`, `WaitMagnitude = 1` over the population-0 optimizer (on which a
step changes nothing), the next iteration is stagnant, increments to
`t = 100, s = 50`, finds the stop condition true, and returns 100 total
steps. -/
theorem C2_witness :
    stepUntilLoop rndZero23 1 7 ⟨optZero, 99, 0, 49⟩ = 100 := by
  have hstep : StepO optZero (rndZero23 99) = optZero := by
    have h1 : updateFitness optZero = optZero := by
      simp only [updateFitness, optZero, baseOptions, List.range_zero, List.foldl_nil]
      norm_num
    rw [StepO, h1]
    rfl
  have h1 : (⟨optZero, 99, 0, 49⟩ : CtrlState).last -
      (StepO (⟨optZero, 99, 0, 49⟩ : CtrlState).opt
        (rndZero23 (⟨optZero, 99, 0, 49⟩ : CtrlState).steps)).globalBestFitness < 1 := by
    show (0 : ℚ) - (StepO optZero (rndZero23 99)).globalBestFitness < 1
    rw [hstep]
    norm_num [optZero]
  have h2 : stopCond
      (StepO (⟨optZero, 99, 0, 49⟩ : CtrlState).opt
        (rndZero23 (⟨optZero, 99, 0, 49⟩ : CtrlState).steps)).options.WaitMagnitude
      ((⟨optZero, 99, 0, 49⟩ : CtrlState).steps + 1)
      ((⟨optZero, 99, 0, 49⟩ : CtrlState).sinceImprovement + 1) := by
    show stopCond optZero.options.WaitMagnitude 100 50
    exact C2_stepUntil_controller.2.2.2.2.2.1
  exact C2_stepUntil_controller.2.2.1 rndZero23 1 6 ⟨optZero, 99, 0, 49⟩ h1 h2

/-- Claim C10: `New` replaces every zero-valued defaultable Options field
(`LocalSize`, `PopulationSize`, `Parallelism`, `Inertia`, `ParticleStep`,
`LocalStep`, `GlobalStep`, `StallLimit`, `WaitMagnitude`) with its
documented default and keeps any nonzero value, so zero is
indistinguishable from unset and the resolved hyperparameters are never
zero (Parallelism given at least one hardware thread). -/
theorem C10_zero_options_defaulted (fitness : Vec → ℚ) (shape : List Range) (opts : Options)
    (gomax : ℕ) (rnd : ℕ → ℕ → ℚ × ℚ)
    (hshape : shape ≠ []) (hg : 1 ≤ gomax) :
    ∃ o, New fitness shape opts gomax rnd = Except.ok o ∧
      o.options.LocalSize = (if opts.LocalSize = 0 then 25 else opts.LocalSize) ∧
      o.options.PopulationSize = (if opts.PopulationSize = 0 then
        (10 * (if opts.LocalSize = 0 then 25 else opts.LocalSize) * shape.length) % 2 ^ 64
        else opts.PopulationSize) ∧
      o.options.Parallelism = (if opts.Parallelism = 0 then gomax else opts.Parallelism) ∧
      o.options.Inertia = (if opts.Inertia = 0 then 0.95 else opts.Inertia) ∧
      o.options.ParticleStep = (if opts.ParticleStep = 0 then 0.75 else opts.ParticleStep) ∧
      o.options.LocalStep = (if opts.LocalStep = 0 then 0.5 else opts.LocalStep) ∧
      o.options.GlobalStep = (if opts.GlobalStep = 0 then 0.1 else opts.GlobalStep) ∧
      o.options.StallLimit = (if opts.StallLimit = 0 then 3 else opts.StallLimit) ∧
      o.options.WaitMagnitude = (if opts.WaitMagnitude = 0 then 2 else opts.WaitMagnitude) ∧
      o.options.LocalSize ≠ 0 ∧ o.options.Parallelism ≠ 0 ∧ o.options.Inertia ≠ 0 ∧
      o.options.ParticleStep ≠ 0 ∧ o.options.LocalStep ≠ 0 ∧ o.options.GlobalStep ≠ 0 ∧
      o.options.StallLimit ≠ 0 ∧ o.options.WaitMagnitude ≠ 0 := by
  have hlen : ¬ shape.length = 0 := by
    intro h
    exact hshape (List.length_eq_zero.mp h)
  refine ⟨ResetO
    { fitness := fitness
      shape := shape
      options := resolveOptions opts shape.length gomax
      positions := []
      velocities := []
      stallCount := []
      particleBestPosition := []
      particleBestFitness := []
      localBestPosition := []
      localBestFitness := []
      globalBestPosition := []
      globalBestFitness := 0
      averageFitness := 0 } rnd, ?_, rfl, rfl, rfl, rfl, rfl, rfl, rfl, rfl, rfl,
    ?_, ?_, ?_, ?_, ?_, ?_, ?_, ?_⟩
  · rw [New, if_neg hlen]
  · show (if opts.LocalSize = 0 then 25 else opts.LocalSize) ≠ 0
    split_ifs with h
    · norm_num
    · exact h
  · show (if opts.Parallelism = 0 then gomax else opts.Parallelism) ≠ 0
    split_ifs with h
    · omega
    · exact h
  · show (if opts.Inertia = 0 then 0.95 else opts.Inertia) ≠ 0
    split_ifs with h
    · norm_num
    · exact h
  · show (if opts.ParticleStep = 0 then 0.75 else opts.ParticleStep) ≠ 0
    split_ifs with h
    · norm_num
    · exact h
  · show (if opts.LocalStep = 0 then 0.5 else opts.LocalStep) ≠ 0
    split_ifs with h
    · norm_num
    · exact h
  · show (if opts.GlobalStep = 0 then 0.1 else opts.GlobalStep) ≠ 0
    split_ifs with h
    · norm_num
    · exact h
  · show (if opts.StallLimit = 0 then 3 else opts.StallLimit) ≠ 0
    split_ifs with h
    · norm_num
    · exact h
  · show (if opts.WaitMagnitude = 0 then 2 else opts.WaitMagnitude) ≠ 0
    split_ifs with h
    · norm_num
    · exact h

/-- Claim C10 witness: with every option unset, `New` resolves
`Inertia = 0.95` and `GlobalStep = 0.1`, both nonzero. -/
theorem C10_witness :
    ∃ o, New (fun _ => 0) [⟨0, 1⟩] baseOptions 1 rndZero2 = Except.ok o ∧
      o.options.Inertia = 0.95 ∧ o.options.GlobalStep = 0.1 ∧
      o.options.Inertia ≠ 0 ∧ o.options.GlobalStep ≠ 0 := by
  obtain ⟨o, hok, hLS, hPS, hPar, hIn, hPa, hLo, hGl, hSt, hWa,
    hnLS, hnPar, hnIn, hnPa, hnLo, hnGl, hnSt, hnWa⟩ :=
    C10_zero_options_defaulted (fun _ => 0) [⟨0, 1⟩] baseOptions 1 rndZero2
      (by simp) (by norm_num)
  refine ⟨o, hok, ?_, ?_, hnIn, hnGl⟩
  · rw [hIn]
    simp [baseOptions]
  · rw [hGl]
    simp [baseOptions]

end swarm
